import Mathlib

/-!
# Session service client (`client.go`, `interface.go`)

A shallow embedding of the Go client of the session service and proofs of its
contract.

* Pointers are `Option` (`none` is `nil`); `uint64` identifiers are `Nat` (the
  client performs no arithmetic on them).
* A Go `(res, err)` pair is a Lean pair `Option _ × Option GoError`.
* A slice is a `List`; the nil slice is `[]`.
* The generated stub `dtprotos.SessionServiceClient` is a record of functions from
  the request to the pair the call returns.  Every operation of the client issues
  exactly one stub call, so nothing is lost by letting the answer depend on the
  request only.
* A server stream is the sequence of the results of its successive `Recv` calls.
* Every operation also returns the list of the effects it performed (`Event`),
  in program order.
* Loops that may run forever take a step budget and report `Outcome.running`
  when the budget is exhausted before the function returns.
-/

/-! ## Errors and messages -/

/-- Go `error` values: the sentinel `io.EOF`, an error reported by the RPC layer,
and an error built by `fmt.Errorf`. A nil error is `none : Option GoError`. -/
inductive GoError where
  | EOF
  | rpc (code : Nat)
  | errorf (msg : String)
  deriving DecidableEq, Repr

/-- A slice; the nil slice is the empty list. -/
abbrev Slice (α : Type) := List α

structure Session where
  ID : Nat
  Name : String
  DeviceIDs : Slice Nat
  deriving DecidableEq, Repr

structure Device where
  ID : Nat
  deriving DecidableEq, Repr

structure SessionDevice where
  DeviceID : Nat
  SessionID : Nat
  deriving DecidableEq, Repr

structure CreateSessionRequest where
  Name : String
  DeviceIDs : Slice Nat
  deriving DecidableEq, Repr

structure GetSessionRequest where
  SessionID : Nat
  deriving DecidableEq, Repr

structure ListSessionsRequest where
  deriving DecidableEq, Repr

structure DeleteSessionRequest where
  SessionID : Nat
  deriving DecidableEq, Repr

structure WaitForSessionRequest where
  DeviceID : Nat
  deriving DecidableEq, Repr

structure ListWaitingSessionRequest where
  deriving DecidableEq, Repr

structure JoinSessionRequest where
  DeviceID : Nat
  SessionID : Nat
  deriving DecidableEq, Repr

structure CreateSessionResponse where
  session : Option Session
  deriving DecidableEq, Repr

structure GetSessionResponse where
  session : Option Session
  deriving DecidableEq, Repr

structure ListSessionsResponse where
  session : Option Session
  deriving DecidableEq, Repr

structure DeleteSessionResponse where
  deriving DecidableEq, Repr

structure WaitForSessionResponse where
  session : Option Session
  deriving DecidableEq, Repr

structure ListWaitingSessionResponse where
  device : Option Device
  deriving DecidableEq, Repr

structure JoinSessionResponse where
  sessionDevice : Option SessionDevice
  deriving DecidableEq, Repr

/-- The getter `(*CreateSessionResponse).GetSession`: nil on a nil receiver. -/
def CreateSessionResponse.GetSession : Option CreateSessionResponse → Option Session
  | none => none
  | some r => r.session

/-- The getter `(*GetSessionResponse).GetSession`: nil on a nil receiver. -/
def GetSessionResponse.GetSession : Option GetSessionResponse → Option Session
  | none => none
  | some r => r.session

/-- The getter `(*ListSessionsResponse).GetSession`: nil on a nil receiver. -/
def ListSessionsResponse.GetSession : Option ListSessionsResponse → Option Session
  | none => none
  | some r => r.session

/-- The getter `(*ListWaitingSessionResponse).GetDevice`: nil on a nil receiver. -/
def ListWaitingSessionResponse.GetDevice : Option ListWaitingSessionResponse → Option Device
  | none => none
  | some r => r.device

/-- The getter `(*JoinSessionResponse).GetSessionDevice`: nil on a nil receiver. -/
def JoinSessionResponse.GetSessionDevice : Option JoinSessionResponse → Option SessionDevice
  | none => none
  | some r => r.sessionDevice

/-! ## The stub and the effects -/

/-- A server stream opened with `context.Background()`: the result of the `n`-th
call of `Recv` (counting from 0). -/
abbrev RecvStream (α : Type) := Nat → Option α × Option GoError

/-- A server stream opened with a cancellable context: the result of the `n`-th
call of `Recv`, given whether the context was cancelled when the call was made. -/
abbrev CtxStream (α : Type) := Bool → Nat → Option α × Option GoError

/-- The stub `dtprotos.SessionServiceClient`. A streaming call returns the stream
(a Go interface value, nil is `none`) and the error. -/
structure SessionServiceClient where
  Create : CreateSessionRequest → Option CreateSessionResponse × Option GoError
  Get : GetSessionRequest → Option GetSessionResponse × Option GoError
  List : ListSessionsRequest → Option (RecvStream ListSessionsResponse) × Option GoError
  Delete : DeleteSessionRequest → Option DeleteSessionResponse × Option GoError
  WaitFor : WaitForSessionRequest → Option (CtxStream WaitForSessionResponse) × Option GoError
  ListWaiting : ListWaitingSessionRequest →
    Option (RecvStream ListWaitingSessionResponse) × Option GoError
  Join : JoinSessionRequest → Option (CtxStream JoinSessionResponse) × Option GoError

/-- The effects an operation performs: the stub calls with their request, the
`Recv` calls on a stream, `context.WithCancel`, `make(chan ...)` and `go`. -/
inductive Event where
  | rpcCreate (req : CreateSessionRequest)
  | rpcGet (req : GetSessionRequest)
  | rpcList (req : ListSessionsRequest)
  | rpcDelete (req : DeleteSessionRequest)
  | rpcWaitFor (req : WaitForSessionRequest)
  | rpcListWaiting (req : ListWaitingSessionRequest)
  | rpcJoin (req : JoinSessionRequest)
  | recv
  | withCancel
  | makeChan
  | go
  deriving DecidableEq, Repr

/-- Whether an effect is a stub (RPC) call. -/
def Event.isRPC : Event → Bool
  | .rpcCreate _ => true
  | .rpcGet _ => true
  | .rpcList _ => true
  | .rpcDelete _ => true
  | .rpcWaitFor _ => true
  | .rpcListWaiting _ => true
  | .rpcJoin _ => true
  | _ => false

/-- How a call ends: it returns, it panics (a method call on a nil interface), or
it is still running when the step budget is used up. -/
inductive Outcome (α : Type) where
  | ret (a : α)
  | panic
  | running
  deriving DecidableEq, Repr

/-- The outcome of a call and the effects it performed so far. -/
structure Run (α : Type) where
  out : Outcome α
  events : List Event
  deriving DecidableEq, Repr

/-- The struct `Client`; the connection is only used by `Close`. -/
structure Client where
  client : SessionServiceClient

/-! ## Unary operations -/

/-- The message of the error `Create` builds when the response has no session. -/
def createMissingMsg : String :=
  "unexpected session in create response. Status is ok but session is nil"

/-- The message of the error `Get` builds when the response has no session. -/
def getMissingMsg : String :=
  "unexpected get session response. Status is ok but session is nil"

/-- Go: `func (c *Client) Create(name string, deviceIDs []uint64) (*dtprotos.Session, error)` -/
def Client.Create (c : Client) (name : String) (deviceIDs : Slice Nat) :
    Run (Option Session × Option GoError) :=
  let req : CreateSessionRequest := { Name := name, DeviceIDs := deviceIDs }
  let (res, err) := c.client.Create req
  match err with
  | some e => { out := .ret (none, some e), events := [.rpcCreate req] }
  | none =>
    let session := CreateSessionResponse.GetSession res
    match session with
    | none => { out := .ret (none, some (.errorf createMissingMsg)), events := [.rpcCreate req] }
    | some s => { out := .ret (some s, none), events := [.rpcCreate req] }

/-- Go: `func (c *Client) Get(id uint64) (*dtprotos.Session, error)` -/
def Client.Get (c : Client) (id : Nat) : Run (Option Session × Option GoError) :=
  let req : GetSessionRequest := { SessionID := id }
  let (res, err) := c.client.Get req
  match err with
  | some e => { out := .ret (none, some e), events := [.rpcGet req] }
  | none =>
    let session := GetSessionResponse.GetSession res
    match session with
    | none => { out := .ret (none, some (.errorf getMissingMsg)), events := [.rpcGet req] }
    | some s => { out := .ret (some s, none), events := [.rpcGet req] }

/-- Go: `func (c *Client) Delete(id uint64) error` -/
def Client.Delete (c : Client) (id : Nat) : Run (Option GoError) :=
  let req : DeleteSessionRequest := { SessionID := id }
  let (_, err) := c.client.Delete req
  { out := .ret err, events := [.rpcDelete req] }

/-! ## Bounded streaming operations -/

/-- The `for` loop of `List` (client.go:80-90), entered with `n` receives already
made, the slice `sessions` and the effects `ev`; `fuel` bounds the iterations. -/
def Client.ListLoop (stream : RecvStream ListSessionsResponse) :
    Nat → Nat → Slice (Option Session) → Slice Event →
      Run (Slice (Option Session) × Option GoError)
  | 0, _, _, ev => { out := .running, events := ev }
  | fuel + 1, n, sessions, ev =>
    let (res, err) := stream n
    if err = some GoError.EOF then
      { out := .ret (sessions, none), events := ev ++ [.recv] }
    else
      match err with
      | some e => { out := .ret ([], some e), events := ev ++ [.recv] }
      | none =>
        Client.ListLoop stream fuel (n + 1)
          (sessions ++ [ListSessionsResponse.GetSession res]) (ev ++ [.recv])

/-- Go: `func (c *Client) List() ([]*dtprotos.Session, error)` -/
def Client.List (c : Client) (fuel : Nat) : Run (Slice (Option Session) × Option GoError) :=
  let req : ListSessionsRequest := {}
  let (stream, err) := c.client.List req
  match err with
  | some e => { out := .ret ([], some e), events := [.rpcList req] }
  | none =>
    match stream with
    | none => { out := .panic, events := [.rpcList req] }
    | some s => Client.ListLoop s fuel 0 [] [.rpcList req]

/-- The `for` loop of `ListWaiting` (client.go:142-149). -/
def Client.ListWaitingLoop (stream : RecvStream ListWaitingSessionResponse) :
    Nat → Nat → Slice (Option Device) → Slice Event →
      Run (Slice (Option Device) × Option GoError)
  | 0, _, _, ev => { out := .running, events := ev }
  | fuel + 1, n, devices, ev =>
    let (res, err) := stream n
    if err = some GoError.EOF then
      { out := .ret (devices, none), events := ev ++ [.recv] }
    else
      Client.ListWaitingLoop stream fuel (n + 1)
        (devices ++ [ListWaitingSessionResponse.GetDevice res]) (ev ++ [.recv])

/-- Go: `func (c *Client) ListWaiting() ([]*dtprotos.Device, error)` -/
def Client.ListWaiting (c : Client) (fuel : Nat) :
    Run (Slice (Option Device) × Option GoError) :=
  let req : ListWaitingSessionRequest := {}
  let (stream, err) := c.client.ListWaiting req
  match err with
  | some e => { out := .ret ([], some e), events := [.rpcListWaiting req] }
  | none =>
    match stream with
    | none => { out := .panic, events := [.rpcListWaiting req] }
    | some s => Client.ListWaitingLoop s fuel 0 [] [.rpcListWaiting req]

/-! ## The streaming bridge (`WaitFor`, `Join`)

The relay goroutine, its channel and the caller run concurrently. The state of
one call is a `Bridge`; a run is a schedule, a list of parties, each entry of which
lets one party try its next step. A party that is blocked does not move. -/

/-- A channel made by `make(chan T, cap)`; `make(chan T)` has capacity 0. -/
structure Chan (β : Type) where
  cap : Nat
  buf : List β
  closed : Bool
  deriving DecidableEq, Repr

/-- Go: `make(chan T, cap)`. -/
def Chan.make (β : Type) (cap : Nat) : Chan β :=
  { cap := cap, buf := [], closed := false }

/-- The function `cancel` returned by `context.WithCancel`; it is never nil. -/
structure CancelFunc where
  deriving DecidableEq, Repr

/-- Where the relay goroutine stands: about to call `stream.Recv()`, at the send
statement `ch <- v`, or past `break` (the goroutine has ended). -/
inductive RelayPC (β : Type) where
  | recv
  | send (v : β)
  | exited
  deriving DecidableEq, Repr

/-- The goroutine started by `WaitFor` or `Join`: the stream it receives from
and the value it sends for a received response (`res` in `WaitFor`,
`res.GetSessionDevice()` in `Join`). -/
structure RelayTask (α β : Type) where
  stream : Option (CtxStream α)
  payload : Option α → β

/-- The state of one streaming call: the goroutine (`pc`, the number `recvs` of
`Recv` calls it has made), the channel, the number of `close` statements
executed, whether the context is cancelled, whether the program has panicked, and
the consumer: what it has read from the channel so far, in order, and whether it
has seen the channel closed. -/
structure Bridge (β : Type) where
  pc : RelayPC β
  recvs : Nat
  ch : Chan β
  closes : Nat
  cancelled : Bool
  panicked : Bool
  delivered : List β
  sawClose : Bool
  deriving DecidableEq, Repr

/-- The state right after `go func() ...` on the channel `ch`. -/
def Bridge.start {β : Type} (ch : Chan β) : Bridge β :=
  { pc := .recv, recvs := 0, ch := ch, closes := 0, cancelled := false,
    panicked := false, delivered := [], sawClose := false }

/-- The parties of a run: the relay goroutine, the consumer reading the channel
(`v, ok := <-ch`, until it sees the channel closed) and the caller invoking the
cancellation function. -/
inductive Party where
  | relay
  | read
  | cancel
  deriving DecidableEq, Repr

/-- One step of the goroutine body
`for { res, err := stream.Recv(); if err != nil { close(ch); break }; ch <- v }`.
A send on an unbuffered channel waits for the reader: the handoff itself is the
reader's step. Closing a closed channel and sending on a closed channel panic. -/
def RelayTask.relayStep {α β : Type} (t : RelayTask α β) (s : Bridge β) : Bridge β :=
  if s.panicked then s
  else
    match s.pc with
    | .recv =>
      match t.stream with
      | none => { s with panicked := true }
      | some stream =>
        let (res, err) := stream s.cancelled s.recvs
        match err with
        | some _ =>
          if s.ch.closed then { s with recvs := s.recvs + 1, panicked := true }
          else
            { s with recvs := s.recvs + 1, ch := { s.ch with closed := true },
                     closes := s.closes + 1, pc := .exited }
        | none => { s with recvs := s.recvs + 1, pc := .send (t.payload res) }
    | .send v =>
      if s.ch.closed then { s with panicked := true }
      else if s.ch.buf.length < s.ch.cap then
        { s with ch := { s.ch with buf := s.ch.buf ++ [v] }, pc := .recv }
      else s
    | .exited => s

/-- One read of the channel by the consumer: a buffered value first, else the
closed signal, else the value of a sender waiting at `ch <- v`, else it waits. -/
def Bridge.readStep {β : Type} (s : Bridge β) : Bridge β :=
  if s.panicked || s.sawClose then s
  else
    match s.ch.buf with
    | x :: rest => { s with ch := { s.ch with buf := rest }, delivered := s.delivered ++ [x] }
    | [] =>
      if s.ch.closed then { s with sawClose := true }
      else
        match s.pc with
        | .send v => { s with pc := .recv, delivered := s.delivered ++ [v] }
        | _ => s

/-- One step of the party `a`. -/
def RelayTask.step {α β : Type} (t : RelayTask α β) (a : Party) (s : Bridge β) : Bridge β :=
  match a with
  | .relay => t.relayStep s
  | .read => s.readStep
  | .cancel => { s with cancelled := true }

/-- The state after the schedule `sched`, from `s`. -/
def RelayTask.run {α β : Type} (t : RelayTask α β) (sched : List Party) (s : Bridge β) :
    Bridge β :=
  sched.foldl (fun s a => t.step a s) s

/-- What `WaitFor` and `Join` return (`ch`, `cancel`, `err`), the effects they
performed, and the goroutine they started, if any. -/
structure BridgeCall (α β : Type) where
  ch : Option (Chan β)
  cancel : Option CancelFunc
  err : Option GoError
  events : List Event
  task : Option (RelayTask α β)

/-- The state of the call after the schedule `sched`, when a channel was returned
and a goroutine started. -/
def BridgeCall.exec {α β : Type} (r : BridgeCall α β) (sched : List Party) :
    Option (Bridge β) :=
  match r.ch, r.task with
  | some ch, some t => some (t.run sched (Bridge.start ch))
  | _, _ => none

/-- Go: `func (c *Client) WaitFor(deviceID uint64)
(<-chan *dtprotos.WaitForSessionResponse, context.CancelFunc, error)` -/
def Client.WaitFor (c : Client) (deviceID : Nat) :
    BridgeCall WaitForSessionResponse (Option WaitForSessionResponse) :=
  let req : WaitForSessionRequest := { DeviceID := deviceID }
  let cancel : CancelFunc := {}
  let (stream, err) := c.client.WaitFor req
  match err with
  | some e =>
    { ch := none, cancel := some cancel, err := some e,
      events := [.withCancel, .rpcWaitFor req], task := none }
  | none =>
    let respCh := Chan.make (Option WaitForSessionResponse) 0
    { ch := some respCh, cancel := some cancel, err := none,
      events := [.withCancel, .rpcWaitFor req, .makeChan, .go],
      task := some { stream := stream, payload := fun res => res } }

/-- Go: `func (c *Client) Join(deviceID uint64, sessionID uint64)
(<-chan *dtprotos.SessionDevice, context.CancelFunc, error)` -/
def Client.Join (c : Client) (deviceID : Nat) (sessionID : Nat) :
    BridgeCall JoinSessionResponse (Option SessionDevice) :=
  let req : JoinSessionRequest := { DeviceID := deviceID, SessionID := sessionID }
  let cancel : CancelFunc := {}
  let (stream, err) := c.client.Join req
  match err with
  | some e =>
    { ch := none, cancel := some cancel, err := some e,
      events := [.withCancel, .rpcJoin req], task := none }
  | none =>
    let ch := Chan.make (Option SessionDevice) 0
    { ch := some ch, cancel := some cancel, err := none,
      events := [.withCancel, .rpcJoin req, .makeChan, .go],
      task := some { stream := stream, payload := JoinSessionResponse.GetSessionDevice } }

/-! ## Schedules and invariants of the bridge -/

/-- The schedule in which the goroutine and the consumer take turns `n` times. -/
def drain : Nat → List Party
  | 0 => []
  | n + 1 => .relay :: .read :: drain n

/-- What holds in every state of a call whose channel is unbuffered: the buffer
is empty, nothing has panicked, the channel is closed exactly when the goroutine
has ended, `close` ran once if the channel is closed and never otherwise, the
consumer saw the closure only of a closed channel, and every receive made so far
but at most one (the failed one, or the message at the send statement) is matched
by a delivered message. -/
def Bridge.Inv {β : Type} (s : Bridge β) : Prop :=
  s.ch.cap = 0 ∧ s.ch.buf = [] ∧ s.panicked = false ∧
  (s.ch.closed = true ↔ s.pc = .exited) ∧
  s.closes = (if s.ch.closed then 1 else 0) ∧
  (s.sawClose = true → s.ch.closed = true) ∧
  s.recvs = s.delivered.length + (match s.pc with | .recv => 0 | _ => 1)

/-- The order invariant of a call that is never cancelled, with `exp` the values
the stream leads the goroutine to send: what was delivered is an initial part of
`exp`, the value at the send statement is the next one, and once the goroutine
has ended everything was delivered. -/
def Bridge.Fifo {β : Type} (exp : List β) (s : Bridge β) : Prop :=
  s.cancelled = false ∧
  match s.pc with
  | .recv => s.delivered <+: exp
  | .send v => s.delivered ++ [v] <+: exp
  | .exited => s.delivered = exp

/-- An upper bound on the number of turns of `drain` after which the consumer of
a call that is never cancelled has seen the channel closed, for a stream of `n`
messages followed by a failure. -/
def Bridge.remaining {β : Type} (n : Nat) (s : Bridge β) : Nat :=
  if s.sawClose then 0
  else
    match s.pc with
    | .recv => n - s.recvs + 1
    | .send _ => n - s.recvs + 2
    | .exited => 1

/-- How a state `s` reached after the cancellation relates to the state `s1` in
which the cancellation function was invoked: the context is cancelled, and
either nothing moved, or the message that stood at the send statement was handed
to the consumer, or the goroutine has ended after at most one more receive
having delivered at most that message. -/
def Bridge.AfterCancel {β : Type} (s1 s : Bridge β) : Prop :=
  s.cancelled = true ∧
  ((s.pc = s1.pc ∧ s.recvs = s1.recvs ∧ s.delivered = s1.delivered) ∨
    (∃ v, s1.pc = .send v ∧ s.pc = .recv ∧ s.recvs = s1.recvs ∧
      s.delivered = s1.delivered ++ [v]) ∨
    (s.pc = .exited ∧ s.recvs ≤ s1.recvs + 1 ∧
      (s.delivered = s1.delivered ∨
        ∃ v, s1.pc = .send v ∧ s.delivered = s1.delivered ++ [v])))

/-! ## Test doubles -/

/-- A stream that yields the results `results` in order and then `last` for ever. -/
def streamOf {α : Type} (results : List (Option α × Option GoError))
    (last : Option α × Option GoError) : RecvStream α :=
  fun n => results.getD n last

/-- A cancellable stream that behaves as `streamOf` while its context is live and
whose every receive fails once the context is cancelled. -/
def ctxStreamOf {α : Type} (results : List (Option α × Option GoError))
    (last : Option α × Option GoError) : CtxStream α :=
  fun cancelled n => if cancelled then (none, some (.rpc 1)) else results.getD n last

/-- A double of the stub whose unary calls succeed, with the session `s` in the
response, and whose streaming calls are established with the given streams. -/
def okDouble (s : Option Session) (sessions : RecvStream ListSessionsResponse)
    (devices : RecvStream ListWaitingSessionResponse)
    (waits : CtxStream WaitForSessionResponse) (joins : CtxStream JoinSessionResponse) :
    SessionServiceClient :=
  { Create := fun _ => (some { session := s }, none)
    Get := fun _ => (some { session := s }, none)
    List := fun _ => (some sessions, none)
    Delete := fun _ => (some {}, none)
    WaitFor := fun _ => (some waits, none)
    ListWaiting := fun _ => (some devices, none)
    Join := fun _ => (some joins, none) }

/-- A double of the stub whose every call fails with the error `e`. -/
def failingDouble (e : GoError) : SessionServiceClient :=
  { Create := fun _ => (none, some e)
    Get := fun _ => (none, some e)
    List := fun _ => (none, some e)
    Delete := fun _ => (none, some e)
    WaitFor := fun _ => (none, some e)
    ListWaiting := fun _ => (none, some e)
    Join := fun _ => (none, some e) }

def demoSession : Session := { ID := 1, Name := "room", DeviceIDs := [10, 20] }

def otherSession : Session := { ID := 2, Name := "lab", DeviceIDs := [] }

/-- Two sessions, then end-of-stream. -/
def demoSessions : RecvStream ListSessionsResponse :=
  streamOf [(some { session := some demoSession }, none),
    (some { session := some otherSession }, none)] (none, some .EOF)

/-- One session, then a transport error. -/
def brokenSessions : RecvStream ListSessionsResponse :=
  streamOf [(some { session := some demoSession }, none)] (none, some (.rpc 14))

/-- One device, one failed receive (gRPC code 14), then end-of-stream. -/
def hiccupDevices : RecvStream ListWaitingSessionResponse :=
  streamOf [(some { device := some { ID := 7 } }, none), (none, some (.rpc 14))]
    (none, some .EOF)

/-- One device, then a transport error on every receive. -/
def brokenDevices : RecvStream ListWaitingSessionResponse :=
  streamOf [(some { device := some { ID := 7 } }, none)] (none, some (.rpc 14))

/-- Two notifications, then end-of-stream. -/
def demoWaits : CtxStream WaitForSessionResponse :=
  ctxStreamOf [(some { session := some demoSession }, none),
    (some { session := some otherSession }, none)] (none, some .EOF)

/-- Two membership updates, then end-of-stream. -/
def demoJoins : CtxStream JoinSessionResponse :=
  ctxStreamOf [(some { sessionDevice := some { DeviceID := 10, SessionID := 1 } }, none),
    (some { sessionDevice := some { DeviceID := 20, SessionID := 1 } }, none)]
    (none, some .EOF)

def demoClient : Client :=
  { client := okDouble (some demoSession) demoSessions hiccupDevices demoWaits demoJoins }

def brokenClient : Client :=
  { client := okDouble none brokenSessions brokenDevices demoWaits demoJoins }

def failingClient : Client := { client := failingDouble (.rpc 14) }

/-- C1: `Create` and `Get` always return, and never a nil session together with a
nil error: when the RPC fails they return nil and that error; when it succeeds
with no session in the response they return nil and the missing-payload error,
which is not nil; otherwise they return the session of the response and a nil
error. -/
theorem create_get_never_nil_session_with_nil_error (c : Client) (name : String)
    (deviceIDs : Slice Nat) (id : Nat) :
    ((∃ s e, (c.Create name deviceIDs).out = .ret (s, e) ∧ ¬(s = none ∧ e = none)) ∧
      (∀ e, (c.client.Create { Name := name, DeviceIDs := deviceIDs }).2 = some e →
        (c.Create name deviceIDs).out = .ret (none, some e)) ∧
      ((c.client.Create { Name := name, DeviceIDs := deviceIDs }).2 = none →
        CreateSessionResponse.GetSession
          (c.client.Create { Name := name, DeviceIDs := deviceIDs }).1 = none →
        (c.Create name deviceIDs).out = .ret (none, some (.errorf createMissingMsg))) ∧
      (∀ s, (c.client.Create { Name := name, DeviceIDs := deviceIDs }).2 = none →
        CreateSessionResponse.GetSession
          (c.client.Create { Name := name, DeviceIDs := deviceIDs }).1 = some s →
        (c.Create name deviceIDs).out = .ret (some s, none))) ∧
    ((∃ s e, (c.Get id).out = .ret (s, e) ∧ ¬(s = none ∧ e = none)) ∧
      (∀ e, (c.client.Get { SessionID := id }).2 = some e →
        (c.Get id).out = .ret (none, some e)) ∧
      ((c.client.Get { SessionID := id }).2 = none →
        GetSessionResponse.GetSession (c.client.Get { SessionID := id }).1 = none →
        (c.Get id).out = .ret (none, some (.errorf getMissingMsg))) ∧
      (∀ s, (c.client.Get { SessionID := id }).2 = none →
        GetSessionResponse.GetSession (c.client.Get { SessionID := id }).1 = some s →
        (c.Get id).out = .ret (some s, none))) := by
  refine ⟨?_, ?_⟩
  · rcases hc : c.client.Create { Name := name, DeviceIDs := deviceIDs } with ⟨res, err⟩
    cases err with
    | some e =>
      simp [Client.Create, hc]
      exact ⟨_, _, ⟨rfl, rfl⟩, by simp⟩
    | none =>
      cases hs : CreateSessionResponse.GetSession res with
      | none =>
        simp [Client.Create, hc, hs]
        exact ⟨_, _, ⟨rfl, rfl⟩, by simp⟩
      | some s =>
        simp [Client.Create, hc, hs]
        exact ⟨_, _, ⟨rfl, rfl⟩, by simp⟩
  · rcases hc : c.client.Get { SessionID := id } with ⟨res, err⟩
    cases err with
    | some e =>
      simp [Client.Get, hc]
      exact ⟨_, _, ⟨rfl, rfl⟩, by simp⟩
    | none =>
      cases hs : GetSessionResponse.GetSession res with
      | none =>
        simp [Client.Get, hc, hs]
        exact ⟨_, _, ⟨rfl, rfl⟩, by simp⟩
      | some s =>
        simp [Client.Get, hc, hs]
        exact ⟨_, _, ⟨rfl, rfl⟩, by simp⟩

/-- C7: `Delete` performs exactly one RPC call, with the request carrying the
given session ID, and returns the error of that call as it is: the same value
when the call fails, nil when it succeeds. -/
theorem delete_one_rpc_error_unchanged (c : Client) (id : Nat) :
    (c.Delete id).events = [.rpcDelete { SessionID := id }] ∧
    ((c.Delete id).events.filter Event.isRPC).length = 1 ∧
    (c.Delete id).out = .ret (c.client.Delete { SessionID := id }).2 ∧
    (∀ e, (c.client.Delete { SessionID := id }).2 = some e →
      (c.Delete id).out = .ret (some e)) ∧
    ((c.client.Delete { SessionID := id }).2 = none → (c.Delete id).out = .ret none) := by
  rcases hc : c.client.Delete { SessionID := id } with ⟨res, err⟩
  simp [Client.Delete, hc, Event.isRPC]

/-! ## Contract of the bounded streaming operations -/

theorem listLoop_items (stream : RecvStream ListSessionsResponse)
    (items : List (Option ListSessionsResponse)) :
    ∀ (fuel n : Nat) (sessions : Slice (Option Session)) (ev : Slice Event),
      (∀ i (h : i < items.length), stream (n + i) = (items[i], none)) →
      (stream (n + items.length)).2 = some GoError.EOF →
      items.length < fuel →
      Client.ListLoop stream fuel n sessions ev =
        { out := .ret (sessions ++ items.map ListSessionsResponse.GetSession, none),
          events := ev ++ List.replicate (items.length + 1) Event.recv } := by
  induction items with
  | nil =>
    intro fuel n sessions ev _ hEOF hfuel
    obtain ⟨f, rfl⟩ : ∃ f, fuel = f + 1 := ⟨fuel - 1, by simp at hfuel; omega⟩
    simp only [List.length_nil, Nat.add_zero] at hEOF
    rcases hs : stream n with ⟨res, err⟩
    rw [hs] at hEOF
    simp only at hEOF
    subst hEOF
    simp [Client.ListLoop, hs]
  | cons x rest ih =>
    intro fuel n sessions ev hitems hEOF hfuel
    obtain ⟨f, rfl⟩ : ∃ f, fuel = f + 1 := ⟨fuel - 1, by simp at hfuel; omega⟩
    have h0 := hitems 0 (by simp)
    simp only [Nat.add_zero, List.getElem_cons_zero] at h0
    have hrest : ∀ i (h : i < rest.length), stream (n + 1 + i) = (rest[i], none) := by
      intro i h
      have := hitems (i + 1) (by simp; omega)
      simpa [Nat.add_assoc, Nat.add_comm 1 i] using this
    have hEOF2 : (stream (n + 1 + rest.length)).2 = some GoError.EOF := by
      have : n + (x :: rest).length = n + 1 + rest.length := by simp; omega
      rw [← this]; exact hEOF
    have hf : rest.length < f := by simp at hfuel; omega
    have := ih f (n + 1) (sessions ++ [ListSessionsResponse.GetSession x]) (ev ++ [Event.recv])
      hrest hEOF2 hf
    simp only [Client.ListLoop, h0]
    simp [this, List.replicate_succ]

theorem listLoop_error (stream : RecvStream ListSessionsResponse) (e : GoError)
    (he : e ≠ GoError.EOF) :
    ∀ (k fuel n : Nat) (sessions : Slice (Option Session)) (ev : Slice Event),
      (∀ i, i < k → (stream (n + i)).2 = none) →
      (stream (n + k)).2 = some e →
      k < fuel →
      Client.ListLoop stream fuel n sessions ev =
        { out := .ret ([], some e), events := ev ++ List.replicate (k + 1) Event.recv } := by
  intro k
  induction k with
  | zero =>
    intro fuel n sessions ev _ hErr hfuel
    obtain ⟨f, rfl⟩ : ∃ f, fuel = f + 1 := ⟨fuel - 1, by omega⟩
    rcases hs : stream n with ⟨res, err⟩
    simp only [Nat.add_zero, hs] at hErr
    subst hErr
    simp [Client.ListLoop, hs, he]
  | succ k ih =>
    intro fuel n sessions ev hok hErr hfuel
    obtain ⟨f, rfl⟩ : ∃ f, fuel = f + 1 := ⟨fuel - 1, by omega⟩
    have h0 := hok 0 (by omega)
    rcases hs : stream n with ⟨res, err⟩
    simp only [Nat.add_zero, hs] at h0
    subst h0
    have hok2 : ∀ i, i < k → (stream (n + 1 + i)).2 = none := by
      intro i h
      have := hok (i + 1) (by omega)
      simpa [Nat.add_assoc, Nat.add_comm 1 i] using this
    have hErr2 : (stream (n + 1 + k)).2 = some e := by
      have : n + (k + 1) = n + 1 + k := by omega
      rw [← this]; exact hErr
    have := ih f (n + 1) (sessions ++ [ListSessionsResponse.GetSession res]) (ev ++ [Event.recv])
      hok2 hErr2 (by omega)
    simp only [Client.ListLoop, hs]
    simp [this, List.replicate_succ]

/-- C4: when the `List` stream is established, emits the responses `items` (any
number, also none) and then signals end-of-stream, `List` returns a nil error and
the sessions of those responses in the order emitted, provided the step budget
covers the `items.length + 1` receives; with no item the result is the empty
sequence and a nil error. -/
theorem list_returns_emitted_sessions_in_order (c : Client)
    (stream : RecvStream ListSessionsResponse) (items : List (Option ListSessionsResponse))
    (fuel : Nat) (hest : c.client.List {} = (some stream, none))
    (hitems : ∀ i (h : i < items.length), stream i = (items[i], none))
    (hEOF : (stream items.length).2 = some GoError.EOF) (hfuel : items.length < fuel) :
    c.List fuel =
      { out := .ret (items.map ListSessionsResponse.GetSession, none),
        events := .rpcList {} :: List.replicate (items.length + 1) Event.recv } ∧
    (items = [] → (c.List fuel).out = .ret ([], none)) := by
  have h := listLoop_items stream items fuel 0 [] [.rpcList {}]
    (by simpa using hitems) (by simpa using hEOF) hfuel
  have hl : c.List fuel =
      { out := .ret (items.map ListSessionsResponse.GetSession, none),
        events := .rpcList {} :: List.replicate (items.length + 1) Event.recv } := by
    simp only [Client.List, hest]
    simpa using h
  refine ⟨hl, ?_⟩
  intro hnil
  subst hnil
  simp [hl]

/-- C5: when the `List` stream is established, its first `k` receives succeed and
receive number `k` fails with an error that is not end-of-stream, `List` returns
the nil sequence and exactly that error, having made exactly `k + 1` receives: it
stops at the failed receive and drops the sessions accumulated before it. -/
theorem list_error_aborts_and_discards (c : Client)
    (stream : RecvStream ListSessionsResponse) (k fuel : Nat) (e : GoError)
    (hest : c.client.List {} = (some stream, none))
    (hok : ∀ i, i < k → (stream i).2 = none)
    (herr : (stream k).2 = some e) (he : e ≠ GoError.EOF) (hfuel : k < fuel) :
    c.List fuel =
      { out := .ret ([], some e),
        events := .rpcList {} :: List.replicate (k + 1) Event.recv } := by
  have h := listLoop_error stream e he k fuel 0 [] [.rpcList {}]
    (by simpa using hok) (by simpa using herr) hfuel
  simp only [Client.List, hest]
  simpa using h

theorem Bridge.inv_start {β : Type} : (Bridge.start (Chan.make β 0)).Inv := by
  simp [Bridge.Inv, Bridge.start, Chan.make]

theorem RelayTask.inv_step {α β : Type} (t : RelayTask α β) (stream : CtxStream α)
    (ht : t.stream = some stream) (a : Party) (s : Bridge β) (h : s.Inv) :
    (t.step a s).Inv := by
  obtain ⟨pc, recvs, ⟨cap, buf, closed⟩, closes, cancelled, panicked, delivered, sawClose⟩ := s
  simp only [Bridge.Inv] at h
  obtain ⟨h1, h2, h3, h4, h5, h6, h7⟩ := h
  subst h1 h2 h3
  cases a with
  | cancel => simpa [RelayTask.step, Bridge.Inv] using ⟨h4, h5, h6, h7⟩
  | relay =>
    cases pc with
    | recv =>
      have hc : closed = false := by
        cases closed <;> simp_all
      subst hc
      rcases hs : stream cancelled recvs with ⟨res, err⟩
      cases err with
      | none => simp_all [RelayTask.step, RelayTask.relayStep, Bridge.Inv]
      | some e => simp_all [RelayTask.step, RelayTask.relayStep, Bridge.Inv]
    | send v =>
      have hc : closed = false := by
        cases closed <;> simp_all
      subst hc
      simp_all [RelayTask.step, RelayTask.relayStep, Bridge.Inv]
    | exited => simp_all [RelayTask.step, RelayTask.relayStep, Bridge.Inv]
  | read =>
    cases sawClose with
    | true => simp_all [RelayTask.step, Bridge.readStep, Bridge.Inv]
    | false =>
      cases pc with
      | recv =>
        have hc : closed = false := by
          cases closed <;> simp_all
        subst hc
        simp_all [RelayTask.step, Bridge.readStep, Bridge.Inv]
      | send v =>
        have hc : closed = false := by
          cases closed <;> simp_all
        subst hc
        simp_all [RelayTask.step, Bridge.readStep, Bridge.Inv]
      | exited =>
        have hc : closed = true := by
          cases closed <;> simp_all
        subst hc
        simp_all [RelayTask.step, Bridge.readStep, Bridge.Inv]

theorem RelayTask.inv_run {α β : Type} (t : RelayTask α β) (stream : CtxStream α)
    (ht : t.stream = some stream) (sched : List Party) :
    ∀ s : Bridge β, s.Inv → (t.run sched s).Inv := by
  induction sched with
  | nil => intro s h; simpa [RelayTask.run] using h
  | cons a rest ih =>
    intro s h
    have := ih (t.step a s) (t.inv_step stream ht a s h)
    simpa [RelayTask.run] using this

theorem snoc_getElem_isInitial {β : Type} (l exp : List β) (hl : l <+: exp)
    (h : l.length < exp.length) : l ++ [exp[l.length]] <+: exp := by
  obtain ⟨r, rfl⟩ := hl
  cases r with
  | nil => simp at h
  | cons x r =>
    have hx : (l ++ x :: r)[l.length] = x := by
      rw [List.getElem_append_right (by simp)]
      simp
    simp [hx]

theorem Bridge.fifo_start {β : Type} (exp : List β) :
    (Bridge.start (Chan.make β 0)).Fifo exp := by
  simp [Bridge.Fifo, Bridge.start]

theorem RelayTask.fifo_step {α β : Type} (t : RelayTask α β) (stream : CtxStream α)
    (ht : t.stream = some stream) (msgs : List (Option α))
    (hmsgs : ∀ i (h : i < msgs.length), stream false i = (msgs[i], none))
    (hfail : (stream false msgs.length).2 ≠ none)
    (a : Party) (ha : a ≠ .cancel) (s : Bridge β) (h : s.Inv)
    (hf : s.Fifo (msgs.map t.payload)) :
    (t.step a s).Fifo (msgs.map t.payload) := by
  obtain ⟨pc, recvs, ⟨cap, buf, closed⟩, closes, cancelled, panicked, delivered, sawClose⟩ := s
  simp only [Bridge.Inv] at h
  obtain ⟨h1, h2, h3, h4, h5, h6, h7⟩ := h
  obtain ⟨hf1, hf2⟩ := hf
  simp only at hf1 hf2 h1 h2 h3 h4 h5 h6 h7
  subst h1 h2 h3 hf1
  cases a with
  | cancel => exact absurd rfl ha
  | relay =>
    cases pc with
    | recv =>
      have hc : closed = false := by
        cases closed <;> simp_all
      subst hc
      simp only [Nat.add_zero] at h7
      subst h7
      have hle := hf2.length_le
      simp only [List.length_map] at hle
      rcases Nat.lt_or_ge delivered.length msgs.length with hlt | hge
      · have hm := hmsgs delivered.length hlt
        have hp := snoc_getElem_isInitial delivered (msgs.map t.payload) hf2 (by simpa using hlt)
        simp only [List.getElem_map] at hp
        simp [RelayTask.step, RelayTask.relayStep, Bridge.Fifo, ht, hm, hp]
      · have heq : delivered.length = msgs.length := by omega
        have hall : delivered = msgs.map t.payload := hf2.eq_of_length (by simpa using heq)
        rw [← heq] at hfail
        rcases hs : stream false delivered.length with ⟨res, err⟩
        rw [hs] at hfail
        cases err with
        | none => simp at hfail
        | some e => simp [RelayTask.step, RelayTask.relayStep, Bridge.Fifo, ht, hs, ← hall]
    | send v =>
      have hc : closed = false := by
        cases closed <;> simp_all
      subst hc
      simpa [RelayTask.step, RelayTask.relayStep, Bridge.Fifo] using hf2
    | exited => simpa [RelayTask.step, RelayTask.relayStep, Bridge.Fifo] using hf2
  | read =>
    cases sawClose with
    | true => simpa [RelayTask.step, Bridge.readStep, Bridge.Fifo] using hf2
    | false =>
      cases pc with
      | recv =>
        have hc : closed = false := by
          cases closed <;> simp_all
        subst hc
        simpa [RelayTask.step, Bridge.readStep, Bridge.Fifo] using hf2
      | send v =>
        have hc : closed = false := by
          cases closed <;> simp_all
        subst hc
        simpa [RelayTask.step, Bridge.readStep, Bridge.Fifo] using hf2
      | exited =>
        have hc : closed = true := by
          cases closed <;> simp_all
        subst hc
        simpa [RelayTask.step, Bridge.readStep, Bridge.Fifo] using hf2

theorem RelayTask.fifo_run {α β : Type} (t : RelayTask α β) (stream : CtxStream α)
    (ht : t.stream = some stream) (msgs : List (Option α))
    (hmsgs : ∀ i (h : i < msgs.length), stream false i = (msgs[i], none))
    (hfail : (stream false msgs.length).2 ≠ none) (sched : List Party) :
    Party.cancel ∉ sched → ∀ s : Bridge β, s.Inv → s.Fifo (msgs.map t.payload) →
      (t.run sched s).Fifo (msgs.map t.payload) := by
  induction sched with
  | nil => intro _ s _ hf; simpa [RelayTask.run] using hf
  | cons a rest ih =>
    intro hnc s h hf
    have ha : a ≠ .cancel := by
      intro hEq
      exact hnc (by simp [hEq])
    have hrest : Party.cancel ∉ rest := by
      intro hmem
      exact hnc (by simp [hmem])
    have := ih hrest (t.step a s) (t.inv_step stream ht a s h)
      (t.fifo_step stream ht msgs hmsgs hfail a ha s h hf)
    simpa [RelayTask.run] using this

theorem RelayTask.turn_remaining {α β : Type} (t : RelayTask α β) (stream : CtxStream α)
    (ht : t.stream = some stream) (msgs : List (Option α))
    (hmsgs : ∀ i (h : i < msgs.length), stream false i = (msgs[i], none))
    (hfail : (stream false msgs.length).2 ≠ none)
    (s : Bridge β) (h : s.Inv) (hf : s.Fifo (msgs.map t.payload)) :
    Bridge.remaining msgs.length (t.step .read (t.step .relay s)) ≤
      Bridge.remaining msgs.length s - 1 := by
  obtain ⟨pc, recvs, ⟨cap, buf, closed⟩, closes, cancelled, panicked, delivered, sawClose⟩ := s
  simp only [Bridge.Inv] at h
  obtain ⟨h1, h2, h3, h4, h5, h6, h7⟩ := h
  obtain ⟨hf1, hf2⟩ := hf
  simp only at hf1 hf2 h1 h2 h3 h4 h5 h6 h7
  subst h1 h2 h3 hf1
  cases pc with
  | recv =>
    have hc : closed = false := by
      cases closed <;> simp_all
    subst hc
    have hsc : sawClose = false := by
      cases sawClose <;> simp_all
    subst hsc
    simp only [Nat.add_zero] at h7
    subst h7
    have hle := hf2.length_le
    simp only [List.length_map] at hle
    rcases Nat.lt_or_ge delivered.length msgs.length with hlt | hge
    · have hm := hmsgs delivered.length hlt
      simp [RelayTask.step, RelayTask.relayStep, Bridge.readStep, Bridge.remaining, ht, hm]
      omega
    · have heq : delivered.length = msgs.length := by omega
      rw [← heq] at hfail
      rcases hs : stream false delivered.length with ⟨res, err⟩
      rw [hs] at hfail
      cases err with
      | none => simp at hfail
      | some e =>
        simp [RelayTask.step, RelayTask.relayStep, Bridge.readStep, Bridge.remaining, ht, hs]
  | send v =>
    have hc : closed = false := by
      cases closed <;> simp_all
    subst hc
    have hsc : sawClose = false := by
      cases sawClose <;> simp_all
    subst hsc
    simp [RelayTask.step, RelayTask.relayStep, Bridge.readStep, Bridge.remaining]
  | exited =>
    have hc : closed = true := by
      cases closed <;> simp_all
    subst hc
    cases sawClose <;>
      simp [RelayTask.step, RelayTask.relayStep, Bridge.readStep, Bridge.remaining]

theorem RelayTask.drain_remaining {α β : Type} (t : RelayTask α β) (stream : CtxStream α)
    (ht : t.stream = some stream) (msgs : List (Option α))
    (hmsgs : ∀ i (h : i < msgs.length), stream false i = (msgs[i], none))
    (hfail : (stream false msgs.length).2 ≠ none) :
    ∀ (m : Nat) (s : Bridge β), s.Inv → s.Fifo (msgs.map t.payload) →
      Bridge.remaining msgs.length (t.run (drain m) s) ≤
        Bridge.remaining msgs.length s - m := by
  intro m
  induction m with
  | zero => intro s _ _; simp [drain, RelayTask.run]
  | succ m ih =>
    intro s h hf
    have h1 := t.inv_step stream ht .relay s h
    have f1 := t.fifo_step stream ht msgs hmsgs hfail .relay (by simp) s h hf
    have h2 := t.inv_step stream ht .read _ h1
    have f2 := t.fifo_step stream ht msgs hmsgs hfail .read (by simp) _ h1 f1
    have hr := t.turn_remaining stream ht msgs hmsgs hfail s h hf
    have := ih _ h2 f2
    simp only [drain, RelayTask.run, List.foldl_cons] at this ⊢
    omega

theorem Bridge.remaining_le {β : Type} (exp : List β) (s : Bridge β) (h : s.Inv)
    (hf : s.Fifo exp) : Bridge.remaining exp.length s ≤ exp.length + 1 := by
  obtain ⟨pc, recvs, ⟨cap, buf, closed⟩, closes, cancelled, panicked, delivered, sawClose⟩ := s
  simp only [Bridge.Inv] at h
  obtain ⟨h1, h2, h3, h4, h5, h6, h7⟩ := h
  obtain ⟨hf1, hf2⟩ := hf
  simp only at hf1 hf2 h1 h2 h3 h4 h5 h6 h7
  cases sawClose with
  | true => simp [Bridge.remaining]
  | false =>
    cases pc with
    | recv => simp [Bridge.remaining]
    | send v =>
      have hlen := hf2.length_le
      simp only [List.length_append, List.length_singleton] at hlen
      have hr : recvs = delivered.length + 1 := h7
      simp only [Bridge.remaining]
      simp
      omega
    | exited => simp [Bridge.remaining]

theorem Bridge.sawClose_of_remaining {β : Type} (n : Nat) (s : Bridge β)
    (h : Bridge.remaining n s = 0) : s.sawClose = true := by
  unfold Bridge.remaining at h
  cases hs : s.sawClose with
  | true => rfl
  | false =>
    rw [hs] at h
    cases hp : s.pc <;> simp [hp] at h

theorem Bridge.isInitial_of_fifo {β : Type} (exp : List β) (s : Bridge β)
    (hf : s.Fifo exp) : s.delivered <+: exp := by
  obtain ⟨_, hf2⟩ := hf
  cases hp : s.pc with
  | recv => simpa [hp] using hf2
  | send v =>
    rw [hp] at hf2
    exact (List.prefix_append _ _).trans hf2
  | exited =>
    rw [hp] at hf2
    simp only at hf2
    rw [hf2]

theorem Bridge.all_of_sawClose {β : Type} (exp : List β) (s : Bridge β) (h : s.Inv)
    (hf : s.Fifo exp) (hs : s.sawClose = true) : s.delivered = exp := by
  obtain ⟨_, _, _, h4, _, h6, _⟩ := h
  have hp := h4.1 (h6 hs)
  obtain ⟨_, hf2⟩ := hf
  rw [hp] at hf2
  exact hf2

/-- The order and completeness of delivery for any goroutine of the bridge: on a
stream that yields the messages `msgs` and then fails, in a run without
cancellation, what the consumer has read is always an initial part of the values
of `msgs`, it is all of them once the consumer has seen the channel closed,
nothing panics, and after any schedule `msgs.length + 1` turns of goroutine and
consumer end with the consumer having read everything and seen the closure. -/
theorem RelayTask.fifo_delivery {α β : Type} (t : RelayTask α β) (stream : CtxStream α)
    (ht : t.stream = some stream) (msgs : List (Option α))
    (hmsgs : ∀ i (h : i < msgs.length), stream false i = (msgs[i], none))
    (hfail : (stream false msgs.length).2 ≠ none) (sched : List Party)
    (hnc : Party.cancel ∉ sched) :
    ((t.run sched (Bridge.start (Chan.make β 0))).delivered <+: msgs.map t.payload ∧
      ((t.run sched (Bridge.start (Chan.make β 0))).sawClose = true →
        (t.run sched (Bridge.start (Chan.make β 0))).delivered = msgs.map t.payload) ∧
      (t.run sched (Bridge.start (Chan.make β 0))).panicked = false) ∧
    (t.run (sched ++ drain (msgs.length + 1)) (Bridge.start (Chan.make β 0))).delivered =
      msgs.map t.payload ∧
    (t.run (sched ++ drain (msgs.length + 1)) (Bridge.start (Chan.make β 0))).sawClose = true ∧
    (t.run (sched ++ drain (msgs.length + 1)) (Bridge.start (Chan.make β 0))).ch.closed =
      true := by
  have hi := t.inv_run stream ht sched _ Bridge.inv_start
  have hf := t.fifo_run stream ht msgs hmsgs hfail sched hnc _ Bridge.inv_start
    (Bridge.fifo_start _)
  have hrun : t.run (sched ++ drain (msgs.length + 1)) (Bridge.start (Chan.make β 0)) =
      t.run (drain (msgs.length + 1)) (t.run sched (Bridge.start (Chan.make β 0))) := by
    simp [RelayTask.run]
  have hd : ∀ m, Party.cancel ∉ drain m := by
    intro m
    induction m with
    | zero => simp [drain]
    | succ m ih => simp [drain, ih]
  have hi2 := t.inv_run stream ht (drain (msgs.length + 1)) _ hi
  have hf2 := t.fifo_run stream ht msgs hmsgs hfail (drain (msgs.length + 1)) (hd _) _ hi hf
  have hrem := t.drain_remaining stream ht msgs hmsgs hfail (msgs.length + 1) _ hi hf
  have hle := Bridge.remaining_le _ _ hi hf
  simp only [List.length_map] at hle
  have hsc := Bridge.sawClose_of_remaining msgs.length _ (by omega : Bridge.remaining
    msgs.length (t.run (drain (msgs.length + 1)) (t.run sched (Bridge.start (Chan.make β 0)))) = 0)
  refine ⟨⟨Bridge.isInitial_of_fifo _ _ hf, Bridge.all_of_sawClose _ _ hi hf, hi.2.2.1⟩, ?_, ?_, ?_⟩
  · rw [hrun]; exact Bridge.all_of_sawClose _ _ hi2 hf2 hsc
  · rw [hrun]; exact hsc
  · rw [hrun]; exact hi2.2.2.2.2.2.1 hsc

/-- C3: when stream establishment fails in `WaitFor` or `Join`, the call returns
a nil channel, a cancellation function that is not nil, and exactly the
establishment error; its only effects are `context.WithCancel` and the stub call,
so it makes no channel and starts no goroutine. -/
theorem waitFor_join_establishment_failure (c : Client) (deviceID sessionID : Nat)
    (e : GoError) :
    ((c.client.WaitFor { DeviceID := deviceID }).2 = some e →
      (c.WaitFor deviceID).ch = none ∧ (c.WaitFor deviceID).cancel ≠ none ∧
      (c.WaitFor deviceID).err = some e ∧ (c.WaitFor deviceID).task.isNone = true ∧
      (c.WaitFor deviceID).events = [.withCancel, .rpcWaitFor { DeviceID := deviceID }] ∧
      Event.makeChan ∉ (c.WaitFor deviceID).events ∧ Event.go ∉ (c.WaitFor deviceID).events ∧
      ∀ sched, ((c.WaitFor deviceID).exec sched).isNone = true) ∧
    ((c.client.Join { DeviceID := deviceID, SessionID := sessionID }).2 = some e →
      (c.Join deviceID sessionID).ch = none ∧ (c.Join deviceID sessionID).cancel ≠ none ∧
      (c.Join deviceID sessionID).err = some e ∧
      (c.Join deviceID sessionID).task.isNone = true ∧
      (c.Join deviceID sessionID).events =
        [.withCancel, .rpcJoin { DeviceID := deviceID, SessionID := sessionID }] ∧
      Event.makeChan ∉ (c.Join deviceID sessionID).events ∧
      Event.go ∉ (c.Join deviceID sessionID).events ∧
      ∀ sched, ((c.Join deviceID sessionID).exec sched).isNone = true) := by
  refine ⟨?_, ?_⟩
  · intro h
    rcases hc : c.client.WaitFor { DeviceID := deviceID } with ⟨stream, err⟩
    rw [hc] at h
    simp only at h
    subst h
    simp [Client.WaitFor, hc, BridgeCall.exec]
  · intro h
    rcases hc : c.client.Join { DeviceID := deviceID, SessionID := sessionID } with ⟨stream, err⟩
    rw [hc] at h
    simp only at h
    subst h
    simp [Client.Join, hc, BridgeCall.exec]

/-- C2: on an established `WaitFor` or `Join` stream that yields the `N`
messages `msgs` and then a receive failure, in any run without cancellation the
consumer has read an initial part of the messages (for `Join`, of their
session-device payloads), never anything else and never out of order, and has
read all `N` when it sees the channel closed; and after any schedule, `N + 1`
turns of goroutine and consumer end with the consumer having read exactly the `N`
items in order and seen the closure. -/
theorem waitFor_join_deliver_in_order (c : Client) (deviceID sessionID : Nat)
    (sched : List Party) (hnc : Party.cancel ∉ sched) :
    (∀ (stream : CtxStream WaitForSessionResponse)
        (msgs : List (Option WaitForSessionResponse)),
      c.client.WaitFor { DeviceID := deviceID } = (some stream, none) →
      (∀ i (h : i < msgs.length), stream false i = (msgs[i], none)) →
      (stream false msgs.length).2 ≠ none →
      ∃ s s', (c.WaitFor deviceID).exec sched = some s ∧
        (c.WaitFor deviceID).exec (sched ++ drain (msgs.length + 1)) = some s' ∧
        s.delivered <+: msgs ∧ (s.sawClose = true → s.delivered = msgs) ∧
        s.panicked = false ∧
        s'.delivered = msgs ∧ s'.sawClose = true ∧ s'.ch.closed = true) ∧
    (∀ (stream : CtxStream JoinSessionResponse) (msgs : List (Option JoinSessionResponse)),
      c.client.Join { DeviceID := deviceID, SessionID := sessionID } = (some stream, none) →
      (∀ i (h : i < msgs.length), stream false i = (msgs[i], none)) →
      (stream false msgs.length).2 ≠ none →
      ∃ s s', (c.Join deviceID sessionID).exec sched = some s ∧
        (c.Join deviceID sessionID).exec (sched ++ drain (msgs.length + 1)) = some s' ∧
        s.delivered <+: msgs.map JoinSessionResponse.GetSessionDevice ∧
        (s.sawClose = true → s.delivered = msgs.map JoinSessionResponse.GetSessionDevice) ∧
        s.panicked = false ∧
        s'.delivered = msgs.map JoinSessionResponse.GetSessionDevice ∧
        s'.sawClose = true ∧ s'.ch.closed = true) := by
  refine ⟨?_, ?_⟩
  · intro stream msgs hest hmsgs hfail
    have h := RelayTask.fifo_delivery
      (⟨some stream, fun res => res⟩ :
        RelayTask WaitForSessionResponse (Option WaitForSessionResponse))
      stream rfl msgs hmsgs hfail sched hnc
    simp only [List.map_id'] at h
    refine ⟨_, _, ?_, ?_, h.1.1, h.1.2.1, h.1.2.2, h.2.1, h.2.2.1, h.2.2.2⟩
    · simp [Client.WaitFor, hest, BridgeCall.exec]
    · simp [Client.WaitFor, hest, BridgeCall.exec]
  · intro stream msgs hest hmsgs hfail
    have h := RelayTask.fifo_delivery
      (⟨some stream, JoinSessionResponse.GetSessionDevice⟩ :
        RelayTask JoinSessionResponse (Option SessionDevice))
      stream rfl msgs hmsgs hfail sched hnc
    refine ⟨_, _, ?_, ?_, h.1.1, h.1.2.1, h.1.2.2, h.2.1, h.2.2.1, h.2.2.2⟩
    · simp [Client.Join, hest, BridgeCall.exec]
    · simp [Client.Join, hest, BridgeCall.exec]

theorem RelayTask.afterCancel_step {α β : Type} (t : RelayTask α β) (stream : CtxStream α)
    (ht : t.stream = some stream) (hc : ∀ i, (stream true i).2 ≠ none)
    (s1 : Bridge β) (a : Party) (s : Bridge β) (h : s.Inv) (hp : Bridge.AfterCancel s1 s) :
    Bridge.AfterCancel s1 (t.step a s) := by
  obtain ⟨pc, recvs, ⟨cap, buf, closed⟩, closes, cancelled, panicked, delivered, sawClose⟩ := s
  simp only [Bridge.Inv] at h
  obtain ⟨h1, h2, h3, h4, h5, h6, h7⟩ := h
  obtain ⟨hp1, hp2⟩ := hp
  simp only at hp1 hp2 h1 h2 h3 h4 h5 h6 h7
  subst h1 h2 h3 hp1
  cases a with
  | cancel => exact ⟨rfl, hp2⟩
  | relay =>
    cases pc with
    | recv =>
      have hcl : closed = false := by
        cases closed <;> simp_all
      subst hcl
      have hfail := hc recvs
      rcases hs : stream true recvs with ⟨res, err⟩
      rw [hs] at hfail
      cases err with
      | none => simp at hfail
      | some e =>
        have hstep : t.step .relay (⟨.recv, recvs, ⟨0, [], false⟩, closes, true, false,
            delivered, sawClose⟩ : Bridge β) =
            ⟨.exited, recvs + 1, ⟨0, [], true⟩, closes + 1, true, false, delivered,
              sawClose⟩ := by
          simp [RelayTask.step, RelayTask.relayStep, ht, hs]
        rw [hstep]
        refine ⟨rfl, ?_⟩
        rcases hp2 with ⟨_, hr, hd⟩ | ⟨v, hv, _, hr, hd⟩ | ⟨hx, _⟩
        · exact Or.inr (Or.inr ⟨rfl, by simp [hr], Or.inl hd⟩)
        · exact Or.inr (Or.inr ⟨rfl, by simp [hr], Or.inr ⟨v, hv, hd⟩⟩)
        · simp at hx
    | send v =>
      have hcl : closed = false := by
        cases closed <;> simp_all
      subst hcl
      refine ⟨rfl, ?_⟩
      simpa [RelayTask.step, RelayTask.relayStep] using hp2
    | exited =>
      refine ⟨rfl, ?_⟩
      simpa [RelayTask.step, RelayTask.relayStep] using hp2
  | read =>
    cases sawClose with
    | true =>
      refine ⟨rfl, ?_⟩
      simpa [RelayTask.step, Bridge.readStep] using hp2
    | false =>
      cases pc with
      | recv =>
        have hcl : closed = false := by
          cases closed <;> simp_all
        subst hcl
        refine ⟨rfl, ?_⟩
        simpa [RelayTask.step, Bridge.readStep] using hp2
      | send v =>
        have hcl : closed = false := by
          cases closed <;> simp_all
        subst hcl
        have hstep : t.step .read (⟨.send v, recvs, ⟨0, [], false⟩, closes, true, false,
            delivered, false⟩ : Bridge β) =
            ⟨.recv, recvs, ⟨0, [], false⟩, closes, true, false, delivered ++ [v], false⟩ := by
          simp [RelayTask.step, Bridge.readStep]
        rw [hstep]
        refine ⟨rfl, ?_⟩
        rcases hp2 with ⟨hpc, hr, hd⟩ | ⟨w, _, hx, _⟩ | ⟨hx, _⟩
        · exact Or.inr (Or.inl ⟨v, hpc.symm, rfl, hr, by simp [hd]⟩)
        · simp at hx
        · simp at hx
      | exited =>
        have hcl : closed = true := by
          cases closed <;> simp_all
        subst hcl
        refine ⟨rfl, ?_⟩
        simpa [RelayTask.step, Bridge.readStep] using hp2

theorem RelayTask.afterCancel_run {α β : Type} (t : RelayTask α β) (stream : CtxStream α)
    (ht : t.stream = some stream) (hc : ∀ i, (stream true i).2 ≠ none)
    (s1 : Bridge β) (sched : List Party) :
    ∀ s : Bridge β, s.Inv → Bridge.AfterCancel s1 s →
      Bridge.AfterCancel s1 (t.run sched s) := by
  induction sched with
  | nil => intro s _ hp; simpa [RelayTask.run] using hp
  | cons a rest ih =>
    intro s h hp
    have := ih (t.step a s) (t.inv_step stream ht a s h)
      (t.afterCancel_step stream ht hc s1 a s h hp)
    simpa [RelayTask.run] using this

theorem RelayTask.cancelled_drains {α β : Type} (t : RelayTask α β) (stream : CtxStream α)
    (ht : t.stream = some stream) (hc : ∀ i, (stream true i).2 ≠ none)
    (s : Bridge β) (h : s.Inv) (hcan : s.cancelled = true) :
    (t.run [.read, .relay, .read] s).sawClose = true := by
  obtain ⟨pc, recvs, ⟨cap, buf, closed⟩, closes, cancelled, panicked, delivered, sawClose⟩ := s
  simp only [Bridge.Inv] at h
  obtain ⟨h1, h2, h3, h4, h5, h6, h7⟩ := h
  simp only at hcan h1 h2 h3 h4 h5 h6 h7
  subst h1 h2 h3 hcan
  cases sawClose with
  | true => cases pc <;> simp_all [RelayTask.run, RelayTask.step, RelayTask.relayStep,
      Bridge.readStep]
  | false =>
    cases pc with
    | recv =>
      have hcl : closed = false := by
        cases closed <;> simp_all
      subst hcl
      have hfail := hc recvs
      rcases hs : stream true recvs with ⟨res, err⟩
      rw [hs] at hfail
      cases err with
      | none => simp at hfail
      | some e =>
        simp [RelayTask.run, RelayTask.step, RelayTask.relayStep, Bridge.readStep, ht, hs]
    | send v =>
      have hcl : closed = false := by
        cases closed <;> simp_all
      subst hcl
      have hfail := hc recvs
      rcases hs : stream true recvs with ⟨res, err⟩
      rw [hs] at hfail
      cases err with
      | none => simp at hfail
      | some e =>
        simp [RelayTask.run, RelayTask.step, RelayTask.relayStep, Bridge.readStep, ht, hs]
    | exited =>
      have hcl : closed = true := by
        cases closed <;> simp_all
      subst hcl
      simp [RelayTask.run, RelayTask.step, RelayTask.relayStep, Bridge.readStep]

theorem Bridge.afterCancel_bounds {β : Type} (s1 s : Bridge β)
    (hp : Bridge.AfterCancel s1 s) :
    s.recvs ≤ s1.recvs + 1 ∧
    (s.delivered = s1.delivered ∨ ∃ v, s1.pc = .send v ∧ s.delivered = s1.delivered ++ [v]) := by
  obtain ⟨_, ⟨_, hr, hd⟩ | ⟨v, hv, _, hr, hd⟩ | ⟨_, hr, hd⟩⟩ := hp
  · exact ⟨by omega, Or.inl hd⟩
  · exact ⟨by omega, Or.inr ⟨v, hv, hd⟩⟩
  · exact ⟨hr, hd⟩

/-- Cancellation ends any goroutine of the bridge: when every receive made with
the context cancelled fails, then from the state `s1` of any run, after the
cancellation and any further schedule nothing has panicked, `close` ran at most
once, a closed channel means the goroutine has ended, at most one more receive
was made and at most the message that stood at the send statement was delivered;
and one read, one goroutine step and one read more end with the goroutine ended,
the channel closed once and the consumer having seen it. -/
theorem RelayTask.cancel_closes {α β : Type} (t : RelayTask α β) (stream : CtxStream α)
    (ht : t.stream = some stream) (hc : ∀ i, (stream true i).2 ≠ none)
    (sched1 sched2 : List Party) :
    ∀ s1, s1 = t.run sched1 (Bridge.start (Chan.make β 0)) →
    (∀ s2, s2 = t.run (sched1 ++ .cancel :: sched2) (Bridge.start (Chan.make β 0)) →
      s2.panicked = false ∧ s2.closes ≤ 1 ∧ (s2.ch.closed = true → s2.pc = .exited) ∧
      s2.recvs ≤ s1.recvs + 1 ∧
      (s2.delivered = s1.delivered ∨
        ∃ v, s1.pc = .send v ∧ s2.delivered = s1.delivered ++ [v])) ∧
    (∀ s3, s3 = t.run (sched1 ++ .cancel :: sched2 ++ [.read, .relay, .read])
        (Bridge.start (Chan.make β 0)) →
      s3.pc = .exited ∧ s3.ch.closed = true ∧ s3.closes = 1 ∧ s3.sawClose = true ∧
      s3.panicked = false ∧ s3.recvs ≤ s1.recvs + 1 ∧
      (s3.delivered = s1.delivered ∨
        ∃ v, s1.pc = .send v ∧ s3.delivered = s1.delivered ++ [v])) := by
  intro s1 hs1
  have hi1 : s1.Inv := by
    rw [hs1]; exact t.inv_run stream ht sched1 _ Bridge.inv_start
  have hi0 : (t.step .cancel s1).Inv := t.inv_step stream ht .cancel s1 hi1
  have hp0 : Bridge.AfterCancel s1 (t.step .cancel s1) := by
    simp [Bridge.AfterCancel, RelayTask.step]
  have hi2 := t.inv_run stream ht sched2 _ hi0
  have hp2 := t.afterCancel_run stream ht hc s1 sched2 _ hi0 hp0
  have hrun2 : t.run (sched1 ++ .cancel :: sched2) (Bridge.start (Chan.make β 0)) =
      t.run sched2 (t.step .cancel s1) := by
    simp [RelayTask.run, hs1]
  refine ⟨?_, ?_⟩
  · intro s2 hs2
    rw [hrun2] at hs2
    subst hs2
    obtain ⟨_, _, g3, g4, g5, _, _⟩ := hi2
    have hb := Bridge.afterCancel_bounds _ _ hp2
    refine ⟨g3, ?_, g4.1, hb.1, hb.2⟩
    rw [g5]; split <;> simp
  · intro s3 hs3
    have hrun3 : t.run (sched1 ++ .cancel :: sched2 ++ [.read, .relay, .read])
        (Bridge.start (Chan.make β 0)) =
        t.run [.read, .relay, .read] (t.run sched2 (t.step .cancel s1)) := by
      simp [RelayTask.run, hs1]
    rw [hrun3] at hs3
    subst hs3
    have hi3 := t.inv_run stream ht [.read, .relay, .read] _ hi2
    have hp3 := t.afterCancel_run stream ht hc s1 [.read, .relay, .read] _ hi2 hp2
    have hsc := t.cancelled_drains stream ht hc _ hi2 hp2.1
    obtain ⟨_, _, g3, g4, g5, g6, _⟩ := hi3
    have hb := Bridge.afterCancel_bounds _ _ hp3
    have hcl := g6 hsc
    refine ⟨g4.1 hcl, hcl, ?_, hsc, g3, hb.1, hb.2⟩
    rw [g5, hcl]; simp

theorem RelayTask.blocked_step {α β : Type} (t : RelayTask α β) (a : Party)
    (ha : a ≠ .read) (s : Bridge β) (h : s.Inv) (v : β) (hp : s.pc = .send v) :
    (t.step a s).pc = .send v ∧ (t.step a s).recvs = s.recvs ∧ (t.step a s).ch = s.ch ∧
    (t.step a s).closes = s.closes ∧ (t.step a s).delivered = s.delivered ∧
    (t.step a s).sawClose = s.sawClose := by
  obtain ⟨pc, recvs, ⟨cap, buf, closed⟩, closes, cancelled, panicked, delivered, sawClose⟩ := s
  simp only [Bridge.Inv] at h
  obtain ⟨h1, h2, h3, h4, h5, h6, h7⟩ := h
  simp only at hp h1 h2 h3 h4 h5 h6 h7
  subst h1 h2 h3 hp
  have hcl : closed = false := by
    cases closed <;> simp_all
  subst hcl
  cases a with
  | read => exact absurd rfl ha
  | cancel => simp [RelayTask.step]
  | relay => simp [RelayTask.step, RelayTask.relayStep]

theorem RelayTask.blocked_run {α β : Type} (t : RelayTask α β) (stream : CtxStream α)
    (ht : t.stream = some stream) (v : β) (sched : List Party) :
    Party.read ∉ sched → ∀ s : Bridge β, s.Inv → s.pc = .send v →
      (t.run sched s).pc = .send v ∧ (t.run sched s).recvs = s.recvs ∧
      (t.run sched s).ch = s.ch ∧ (t.run sched s).closes = s.closes ∧
      (t.run sched s).delivered = s.delivered ∧ (t.run sched s).sawClose = s.sawClose := by
  induction sched with
  | nil => intro _ s _ hp; simp [RelayTask.run, hp]
  | cons a rest ih =>
    intro hnr s h hp
    have ha : a ≠ .read := by
      intro hEq
      exact hnr (by simp [hEq])
    have hrest : Party.read ∉ rest := by
      intro hmem
      exact hnr (by simp [hmem])
    obtain ⟨b1, b2, b3, b4, b5, b6⟩ := t.blocked_step a ha s h v hp
    obtain ⟨r1, r2, r3, r4, r5, r6⟩ := ih hrest (t.step a s) (t.inv_step stream ht a s h) b1
    simp only [RelayTask.run, List.foldl_cons] at r1 r2 r3 r4 r5 r6 ⊢
    exact ⟨r1, r2.trans b2, r3.trans b3, r4.trans b4, r5.trans b5, r6.trans b6⟩

/-- C8: on an established `WaitFor` or `Join` stream whose receives all fail once
the context is cancelled, invoking the cancellation function in the state `s1` of
any run leads, after any further schedule, to a state `s2` with no panic, at most
one `close`, no goroutine left at the send statement of a closed channel, at most
one more receive and at most the one message that stood at the send statement
delivered; and a read, a goroutine step and a read more lead to a state `s3` in
which the goroutine has ended, the channel was closed exactly once and the
consumer has seen the closure. -/
theorem cancel_closes_channel_in_bounded_steps (c : Client) (deviceID sessionID : Nat)
    (sched1 sched2 : List Party) :
    (∀ stream : CtxStream WaitForSessionResponse,
      c.client.WaitFor { DeviceID := deviceID } = (some stream, none) →
      (∀ i, (stream true i).2 ≠ none) →
      ∃ s1 s2 s3, (c.WaitFor deviceID).exec sched1 = some s1 ∧
        (c.WaitFor deviceID).exec (sched1 ++ .cancel :: sched2) = some s2 ∧
        (c.WaitFor deviceID).exec (sched1 ++ .cancel :: sched2 ++ [.read, .relay, .read]) =
          some s3 ∧
        (s2.panicked = false ∧ s2.closes ≤ 1 ∧ (s2.ch.closed = true → s2.pc = .exited) ∧
          s2.recvs ≤ s1.recvs + 1 ∧
          (s2.delivered = s1.delivered ∨
            ∃ v, s1.pc = .send v ∧ s2.delivered = s1.delivered ++ [v])) ∧
        (s3.pc = .exited ∧ s3.ch.closed = true ∧ s3.closes = 1 ∧ s3.sawClose = true ∧
          s3.panicked = false ∧ s3.recvs ≤ s1.recvs + 1 ∧
          (s3.delivered = s1.delivered ∨
            ∃ v, s1.pc = .send v ∧ s3.delivered = s1.delivered ++ [v]))) ∧
    (∀ stream : CtxStream JoinSessionResponse,
      c.client.Join { DeviceID := deviceID, SessionID := sessionID } = (some stream, none) →
      (∀ i, (stream true i).2 ≠ none) →
      ∃ s1 s2 s3, (c.Join deviceID sessionID).exec sched1 = some s1 ∧
        (c.Join deviceID sessionID).exec (sched1 ++ .cancel :: sched2) = some s2 ∧
        (c.Join deviceID sessionID).exec
          (sched1 ++ .cancel :: sched2 ++ [.read, .relay, .read]) = some s3 ∧
        (s2.panicked = false ∧ s2.closes ≤ 1 ∧ (s2.ch.closed = true → s2.pc = .exited) ∧
          s2.recvs ≤ s1.recvs + 1 ∧
          (s2.delivered = s1.delivered ∨
            ∃ v, s1.pc = .send v ∧ s2.delivered = s1.delivered ++ [v])) ∧
        (s3.pc = .exited ∧ s3.ch.closed = true ∧ s3.closes = 1 ∧ s3.sawClose = true ∧
          s3.panicked = false ∧ s3.recvs ≤ s1.recvs + 1 ∧
          (s3.delivered = s1.delivered ∨
            ∃ v, s1.pc = .send v ∧ s3.delivered = s1.delivered ++ [v]))) := by
  refine ⟨?_, ?_⟩
  · intro stream hest hc
    have h := RelayTask.cancel_closes
      (⟨some stream, fun res => res⟩ :
        RelayTask WaitForSessionResponse (Option WaitForSessionResponse))
      stream rfl hc sched1 sched2 _ rfl
    refine ⟨_, _, _, ?_, ?_, ?_, h.1 _ rfl, h.2 _ rfl⟩ <;>
      simp [Client.WaitFor, hest, BridgeCall.exec]
  · intro stream hest hc
    have h := RelayTask.cancel_closes
      (⟨some stream, JoinSessionResponse.GetSessionDevice⟩ :
        RelayTask JoinSessionResponse (Option SessionDevice))
      stream rfl hc sched1 sched2 _ rfl
    refine ⟨_, _, _, ?_, ?_, ?_, h.1 _ rfl, h.2 _ rfl⟩ <;>
      simp [Client.Join, hest, BridgeCall.exec]

/-- C9: on an established `Join` stream, in every state of every run the channel
buffer is empty and at most one received message is not yet delivered; and when
the goroutine stands at the send statement with the message `v`, then as long as
no read occurs, whatever the goroutine and the cancellation do, it still stands
there with `v`: it has made no further receive, the channel is unchanged and
open, nothing was delivered or dropped, nothing panicked, and the next read
delivers `v`. -/
theorem join_relay_blocked_until_read (c : Client) (deviceID sessionID : Nat)
    (stream : CtxStream JoinSessionResponse)
    (hest : c.client.Join { DeviceID := deviceID, SessionID := sessionID } =
      (some stream, none))
    (sched1 sched2 : List Party) (hnr : Party.read ∉ sched2) :
    ∃ s1 s2, (c.Join deviceID sessionID).exec sched1 = some s1 ∧
      (c.Join deviceID sessionID).exec (sched1 ++ sched2) = some s2 ∧
      s1.ch.cap = 0 ∧ s1.ch.buf = [] ∧ s1.recvs ≤ s1.delivered.length + 1 ∧
      ∀ v, s1.pc = .send v →
        s2.pc = .send v ∧ s2.recvs = s1.recvs ∧ s2.ch = s1.ch ∧ s2.ch.closed = false ∧
        s2.closes = s1.closes ∧ s2.delivered = s1.delivered ∧ s2.panicked = false ∧
        s2.readStep.delivered = s1.delivered ++ [v] ∧ s2.readStep.pc = .recv := by
  let t : RelayTask JoinSessionResponse (Option SessionDevice) :=
    ⟨some stream, JoinSessionResponse.GetSessionDevice⟩
  have hi1 := t.inv_run stream rfl sched1 _ Bridge.inv_start
  have hi2 := t.inv_run stream rfl sched2 _ hi1
  refine ⟨t.run sched1 (Bridge.start (Chan.make _ 0)),
    t.run sched2 (t.run sched1 (Bridge.start (Chan.make _ 0))), ?_, ?_, hi1.1, hi1.2.1, ?_, ?_⟩
  · simp [Client.Join, hest, BridgeCall.exec, t]
  · simp [Client.Join, hest, BridgeCall.exec, t, RelayTask.run]
  · have h7 := hi1.2.2.2.2.2.2
    rw [h7]
    split <;> omega
  · intro v hp
    obtain ⟨r1, r2, r3, r4, r5, r6⟩ := t.blocked_run stream rfl v sched2 hnr _ hi1 hp
    obtain ⟨g1, g2, g3, g4, g5, g6, g7⟩ := hi2
    have hcl : (t.run sched2 (t.run sched1 (Bridge.start (Chan.make _ 0)))).ch.closed =
        false := by
      cases hb : (t.run sched2 (t.run sched1 (Bridge.start (Chan.make _ 0)))).ch.closed with
      | false => rfl
      | true =>
        have := g4.1 hb
        rw [r1] at this
        simp at this
    have hsc : (t.run sched2 (t.run sched1 (Bridge.start (Chan.make _ 0)))).sawClose =
        false := by
      cases hb : (t.run sched2 (t.run sched1 (Bridge.start (Chan.make _ 0)))).sawClose with
      | false => rfl
      | true =>
        have := g6 hb
        rw [hcl] at this
        simp at this
    refine ⟨r1, r2, r3, hcl, r4, r5, g3, ?_, ?_⟩
    · simp [Bridge.readStep, g3, hsc, g2, hcl, r1, r5]
    · simp [Bridge.readStep, g3, hsc, g2, hcl, r1]

/-! ## The contract at concrete inputs -/

theorem create_get_never_nil_session_with_nil_error_witness :
    (demoClient.Create "room" [10, 20]).out = .ret (some demoSession, none) ∧
    (failingClient.Get 3).out = .ret (none, some (.rpc 14)) ∧
    (brokenClient.Get 3).out = .ret (none, some (.errorf getMissingMsg)) :=
  ⟨(create_get_never_nil_session_with_nil_error demoClient "room" [10, 20] 3).1.2.2.2
      demoSession rfl rfl,
    (create_get_never_nil_session_with_nil_error failingClient "room" [10, 20] 3).2.2.1
      (.rpc 14) rfl,
    (create_get_never_nil_session_with_nil_error brokenClient "room" [10, 20] 3).2.2.2.1
      rfl rfl⟩

theorem delete_one_rpc_error_unchanged_witness :
    (failingClient.Delete 3).out = .ret (some (.rpc 14)) ∧
    (demoClient.Delete 3).out = .ret none :=
  ⟨(delete_one_rpc_error_unchanged failingClient 3).2.2.2.1 (.rpc 14) rfl,
    (delete_one_rpc_error_unchanged demoClient 3).2.2.2.2 rfl⟩

theorem list_returns_emitted_sessions_in_order_witness :
    demoClient.List 3 =
      { out := .ret ([some demoSession, some otherSession], none),
        events := [.rpcList {}, .recv, .recv, .recv] } :=
  (list_returns_emitted_sessions_in_order demoClient demoSessions
    [some { session := some demoSession }, some { session := some otherSession }] 3 rfl
    (fun i h => match i, h with
      | 0, _ => rfl
      | 1, _ => rfl
      | n + 2, h => absurd h (by simp))
    rfl (by decide)).1

theorem list_error_aborts_and_discards_witness :
    brokenClient.List 2 =
      { out := .ret ([], some (.rpc 14)), events := [.rpcList {}, .recv, .recv] } :=
  list_error_aborts_and_discards brokenClient brokenSessions 1 2 (.rpc 14) rfl
    (fun i h => match i, h with
      | 0, _ => rfl
      | n + 1, h => absurd h (by omega))
    rfl (by decide) (by decide)

/-- C6: on the stream that yields one device, then a failed receive (gRPC code
14), then end-of-stream, `ListWaiting` does not stop at the failed receive with
the one device accumulated: it appends a nil device for it, makes a third
receive, and returns two entries; and on a stream whose receives keep failing it
has not returned within a budget of 50 receives. -/
theorem listWaiting_continues_after_receive_error :
    demoClient.ListWaiting 3 =
      { out := .ret ([some { ID := 7 }, none], none),
        events := [.rpcListWaiting {}, .recv, .recv, .recv] } ∧
    (demoClient.ListWaiting 3).out ≠ .ret ([some { ID := 7 }], none) ∧
    (brokenClient.ListWaiting 50).out = .running := by
  refine ⟨by rfl, by decide, by rfl⟩

theorem waitFor_join_establishment_failure_witness :
    (failingClient.WaitFor 5).ch = none ∧ (failingClient.WaitFor 5).err = some (.rpc 14) ∧
    (failingClient.Join 5 6).ch = none ∧ (failingClient.Join 5 6).err = some (.rpc 14) :=
  ⟨((waitFor_join_establishment_failure failingClient 5 6 (.rpc 14)).1 rfl).1,
    ((waitFor_join_establishment_failure failingClient 5 6 (.rpc 14)).1 rfl).2.2.1,
    ((waitFor_join_establishment_failure failingClient 5 6 (.rpc 14)).2 rfl).1,
    ((waitFor_join_establishment_failure failingClient 5 6 (.rpc 14)).2 rfl).2.2.1⟩

theorem waitFor_join_deliver_in_order_witness :
    ∃ s, (demoClient.Join 10 1).exec ([.read, .relay] ++ drain 3) = some s ∧
      s.delivered = [some { DeviceID := 10, SessionID := 1 },
        some { DeviceID := 20, SessionID := 1 }] ∧
      s.sawClose = true := by
  obtain ⟨_, s, _, h2, _, _, _, h6, h7, _⟩ :=
    (waitFor_join_deliver_in_order demoClient 10 1 [.read, .relay] (by decide)).2 demoJoins
      [some { sessionDevice := some { DeviceID := 10, SessionID := 1 } },
        some { sessionDevice := some { DeviceID := 20, SessionID := 1 } }] rfl
      (fun i h => match i, h with
        | 0, _ => rfl
        | 1, _ => rfl
        | n + 2, h => absurd h (by simp))
      (by decide)
  exact ⟨s, h2, h6, h7⟩

theorem cancel_closes_channel_in_bounded_steps_witness :
    ∃ s, (demoClient.WaitFor 10).exec
        ([.relay] ++ .cancel :: [.relay] ++ [.read, .relay, .read]) = some s ∧
      s.pc = .exited ∧ s.closes = 1 ∧ s.sawClose = true ∧ s.recvs ≤ 2 := by
  obtain ⟨s1, _, s, h1, _, h3, _, g1, _, g3, g4, _, g6, _⟩ :=
    (cancel_closes_channel_in_bounded_steps demoClient 10 1 [.relay] [.relay]).1 demoWaits rfl
      (fun i => by simp [demoWaits, ctxStreamOf])
  have hr : s1.recvs = 1 := by
    have : (demoClient.WaitFor 10).exec [.relay] = some s1 := h1
    have h0 : (demoClient.WaitFor 10).exec [.relay] =
        some ((⟨some demoWaits, fun res => res⟩ :
          RelayTask WaitForSessionResponse (Option WaitForSessionResponse)).run [.relay]
            (Bridge.start (Chan.make _ 0))) := rfl
    rw [h0] at this
    injection this with this
    rw [← this]
    rfl
  exact ⟨s, h3, g1, g3, g4, by omega⟩

theorem join_relay_blocked_until_read_witness :
    ∃ s, (demoClient.Join 10 1).exec ([.relay] ++ [.relay, .cancel, .relay]) = some s ∧
      s.ch.closed = false ∧ s.delivered = [] := by
  obtain ⟨s1, s, h1, h2, _, _, _, h⟩ :=
    join_relay_blocked_until_read demoClient 10 1 demoJoins rfl [.relay]
      [.relay, .cancel, .relay] (by decide)
  have h0 : (demoClient.Join 10 1).exec [.relay] =
      some ((⟨some demoJoins, JoinSessionResponse.GetSessionDevice⟩ :
        RelayTask JoinSessionResponse (Option SessionDevice)).run [.relay]
          (Bridge.start (Chan.make _ 0))) := rfl
  rw [h0] at h1
  injection h1 with h1
  have hpc : s1.pc = .send (some { DeviceID := 10, SessionID := 1 }) := by
    rw [← h1]; rfl
  have hd : s1.delivered = [] := by
    rw [← h1]; rfl
  obtain ⟨_, _, _, hcl, _, hdel, _⟩ := h _ hpc
  exact ⟨s, h2, hcl, by rw [hdel, hd]⟩
